import Mathlib

set_option maxRecDepth 100000

/-!
Verification development for the code-execution engine of the `se_training`
backend (src/app/runners and the API entry points that drive it).

The Python sources are shallowly embedded:
* `subprocess.run` is modelled by an oracle `ProcOracle : ProcSpec → ProcOutcome`;
  the `ProcSpec` records exactly the data the source passes to `subprocess.run`
  (command, stdin, timeout, working directory, files written beforehand), and the
  outcome distinguishes normal completion, `subprocess.TimeoutExpired`,
  `FileNotFoundError` and any other exception, mirroring the `except` clauses.
* Wall-clock measurements (`time.time()` differences) are an input `elapsed : ℚ`.
* Python `float` time limits are modelled as `ℚ`.
* A raised exception escaping a function is modelled by `Except.error`.
* The ephemeral workspace is a list of paths; `tempfile.TemporaryDirectory`'s
  context manager is the combinator `withTempDir`, which removes every path
  under the directory on every exit path, as `__exit__` does.
-/

/-- Outcome of one `subprocess.run` invocation, as discriminated by the
`except` clauses of the source: normal completion (with return code and
captured output), `subprocess.TimeoutExpired`, `FileNotFoundError` (with the
exception text) and any other exception. -/
inductive ProcOutcome where
  | completed (returncode : Int) (stdout : String) (stderr : String)
  | timedOut
  | fileNotFound (msg : String)
  | otherError (msg : String)
deriving DecidableEq, Repr

/-- The data the source hands to `subprocess.run`: command line, optional
stdin text, wall-clock timeout in seconds, working directory, and the files
the caller wrote into the workspace before spawning. -/
structure ProcSpec where
  cmd : List String
  input : Option String
  timeout : ℚ
  cwd : String
  files : List (String × String)
deriving DecidableEq, Repr

/-- The environment decides how a spawned process behaves. -/
def ProcOracle : Type := ProcSpec → ProcOutcome

/-- The timeout message of `simple_executor.py` and `python_runner.py` /
`typescript_runner.py`: `f"実行時間が制限（{time_limit_sec}秒）を超えました"`. -/
def timeoutExpiredMsg (t : ℚ) : String :=
  "実行時間が制限（" ++ toString t ++ "秒）を超えました"

/-- The non-zero-exit message of `simple_executor.py`. -/
def nonzeroExitMsg : String := "実行が終了コード0以外で終了しました"

/-- Result dictionary of `run_python_script` / `run_typescript_script`
(src/app/runners/simple_executor.py): keys `status`, `exit_code`, `stdout`,
`stderr`, `execution_time_sec`, `error_message`. -/
structure ScriptResult where
  status : String
  exit_code : Option Int
  stdout : Option String
  stderr : Option String
  execution_time_sec : ℚ
  error_message : Option String
deriving DecidableEq, Repr

/-- The `subprocess.run` call of `run_python_script`
(simple_executor.py:56-64): command `[sys.executable, str(main_file)]`
(the interpreter is written `"python"` here), stdin passed through, timeout
`max(0.1, time_limit_sec)`, cwd the temporary directory, after writing the
user code to `main.py`. -/
def pythonScriptSpec (tmpdir : String) (code : String) (stdin : Option String)
    (time_limit_sec : ℚ) : ProcSpec :=
  { cmd := ["python", tmpdir ++ "/main.py"]
    input := stdin
    timeout := max (1/10 : ℚ) time_limit_sec
    cwd := tmpdir
    files := [(tmpdir ++ "/main.py", code)] }

/-- Content of the `package.json` written by `run_typescript_script`. -/
def simpleRunnerPackageJson : String :=
  "\x7b\"name\":\"simple-runner\",\"version\":\"1.0.0\",\"type\":\"module\"\x7d"

/-- The `subprocess.run` call of `run_typescript_script`
(simple_executor.py:136-145): command `["npx", "--yes", "tsx", str(main_file)]`,
timeout `max(0.1, time_limit_sec)`, after writing `package.json` and `main.ts`. -/
def typescriptScriptSpec (tmpdir : String) (code : String) (stdin : Option String)
    (time_limit_sec : ℚ) : ProcSpec :=
  { cmd := ["npx", "--yes", "tsx", tmpdir ++ "/main.ts"]
    input := stdin
    timeout := max (1/10 : ℚ) time_limit_sec
    cwd := tmpdir
    files := [(tmpdir ++ "/package.json", simpleRunnerPackageJson),
              (tmpdir ++ "/main.ts", code)] }

/-- `run_python_script` (simple_executor.py:20-90).  Classification:
completion maps exit code 0 to `"success"` and anything else to `"error"`;
`TimeoutExpired` maps to `"timeout"` with null stdout/stderr and the limit in
the message; `FileNotFoundError` and every other exception are caught by the
generic `except Exception` clause (`"実行エラー: ..."`). -/
def run_python_script (proc : ProcOracle) (code : String) (stdin : Option String)
    (time_limit_sec : ℚ) (tmpdir : String) (elapsed : ℚ) : ScriptResult :=
  match proc (pythonScriptSpec tmpdir code stdin time_limit_sec) with
  | .completed rc out err =>
      { status := if rc = 0 then "success" else "error"
        exit_code := some rc
        stdout := some out
        stderr := some err
        execution_time_sec := elapsed
        error_message := if rc = 0 then none else some nonzeroExitMsg }
  | .timedOut =>
      { status := "timeout", exit_code := none, stdout := none, stderr := none
        execution_time_sec := elapsed
        error_message := some (timeoutExpiredMsg time_limit_sec) }
  | .fileNotFound msg =>
      { status := "error", exit_code := none, stdout := none, stderr := none
        execution_time_sec := elapsed
        error_message := some ("実行エラー: " ++ msg) }
  | .otherError msg =>
      { status := "error", exit_code := none, stdout := none, stderr := none
        execution_time_sec := elapsed
        error_message := some ("実行エラー: " ++ msg) }

/-- `run_typescript_script` (simple_executor.py:93-180).  Same classification
as `run_python_script` except that `FileNotFoundError` has a dedicated
operator-facing message about the missing `npx`/`tsx` toolchain. -/
def run_typescript_script (proc : ProcOracle) (code : String) (stdin : Option String)
    (time_limit_sec : ℚ) (tmpdir : String) (elapsed : ℚ) : ScriptResult :=
  match proc (typescriptScriptSpec tmpdir code stdin time_limit_sec) with
  | .completed rc out err =>
      { status := if rc = 0 then "success" else "error"
        exit_code := some rc
        stdout := some out
        stderr := some err
        execution_time_sec := elapsed
        error_message := if rc = 0 then none else some nonzeroExitMsg }
  | .timedOut =>
      { status := "timeout", exit_code := none, stdout := none, stderr := none
        execution_time_sec := elapsed
        error_message := some (timeoutExpiredMsg time_limit_sec) }
  | .fileNotFound _ =>
      { status := "error", exit_code := none, stdout := none, stderr := none
        execution_time_sec := elapsed
        error_message := some "npx/tsx が見つかりません。Node.js と tsx が必要です。" }
  | .otherError msg =>
      { status := "error", exit_code := none, stdout := none, stderr := none
        execution_time_sec := elapsed
        error_message := some ("実行エラー: " ++ msg) }

/-! ## Data model (src/app/models) -/

/-- `Language` enum of src/app/models/problem.py 
(named `Lang` here because `Language` already exists in Mathlib). -/
inductive Lang where
  | python
  | typescript
deriving DecidableEq, Repr

/-- String value of a `Language` member (it is a `str` enum). -/
def Lang.value : Lang → String
  | .python => "python"
  | .typescript => "typescript"

/-- The fields of the `Problem` model (src/app/models/problem.py) that the
execution engine reads; the purely presentational fields (title, difficulty,
description, hint, solution, category, memory limit) are omitted. -/
structure Problem where
  id : String
  function_signature : String
  test_code : String
  time_limit_sec : ℚ
  supported_languages : Option (List Lang)
deriving DecidableEq, Repr

/-- `Problem.get_supported_languages`: `[PYTHON]` when the list is `None` or
empty, the stored list otherwise. -/
def Problem.get_supported_languages (p : Problem) : List Lang :=
  match p.supported_languages with
  | none => [.python]
  | some [] => [.python]
  | some (l :: ls) => l :: ls

/-! ## Character-level scanners

The runners use `re` for a handful of fixed patterns.  They are embedded as
explicit scanners over `List Char`.  Two documented simplifications against
CPython's engine, both invisible on the inputs the theorems below quantify
over: `\w`/`\s` are their ASCII subsets, and the `re.MULTILINE`-flagged
substitutions are applied line by line (so a `\s` quantifier never crosses a
newline, and there is no backtracking into a `\s+`/`\s*` that would let a
captured group begin with whitespace or be carved out of a whitespace run). -/

/-- ASCII `\w`. -/
def isWordChar (c : Char) : Bool := c.isAlphanum || c = '_'

/-- ASCII `\s` (the whitespace characters Python's `str.strip` also uses). -/
def isPySpace (c : Char) : Bool :=
  c = ' ' || c = '\t' || c = '\n' || c = '\r' || c = '\x0c' || c = '\x0b'

/-- Does `pat` occur as a contiguous substring? -/
def containsSub (pat : List Char) : List Char → Bool
  | [] => pat.isPrefixOf []
  | c :: t => pat.isPrefixOf (c :: t) || containsSub pat t

/-- `str.replace` scanner for a non-empty pattern `ph :: pt`: leftmost,
non-overlapping, the replacement is not rescanned.  `skip` counts pattern
characters already consumed by an emitted replacement, making the recursion
structural (one character per step). -/
def replaceAllGo (ph : Char) (pt repl : List Char) : Nat → List Char → List Char
  | _, [] => []
  | Nat.succ k, _ :: t => replaceAllGo ph pt repl k t
  | 0, c :: t =>
    if (ph :: pt).isPrefixOf (c :: t) then
      repl ++ replaceAllGo ph pt repl pt.length t
    else
      c :: replaceAllGo ph pt repl 0 t

/-- `str.replace` for a non-empty pattern. -/
def replaceAll (ph : Char) (pt repl s : List Char) : List Char :=
  replaceAllGo ph pt repl 0 s

/-- `str.replace` (all occurrences); an empty pattern is never used by the
source and is modelled as the identity. -/
def pyReplace (pat repl s : List Char) : List Char :=
  match pat with
  | [] => s
  | ph :: pt => replaceAll ph pt repl s

/-- Scanner for `re.sub(r'\bW\b', repl, s)` where `W` is a word made of word
characters (`True`/`False`/`None` here): `prevWord` records whether the
previous character of the original string is a word character, and `skip`
counts word characters already consumed by an emitted replacement (the word is
all word characters, so `prevWord` is `true` across and after a replacement).
Boundaries are judged on the original string, as `re.sub` does. -/
def pyWordSubGo (wh : Char) (wt repl : List Char) : Bool → Nat → List Char → List Char
  | _, _, [] => []
  | prevWord, Nat.succ k, _ :: t => pyWordSubGo wh wt repl prevWord k t
  | prevWord, 0, c :: t =>
    if (wh :: wt).isPrefixOf (c :: t) && !prevWord
        && !(match (t.drop wt.length).head? with
             | none => false
             | some n => isWordChar n) then
      repl ++ pyWordSubGo wh wt repl true wt.length t
    else
      c :: pyWordSubGo wh wt repl (isWordChar c) 0 t

/-- `re.sub(r'\bW\b', repl, s)` for a non-empty all-word-character `W`. -/
def pyWordSub (w repl : List Char) (s : List Char) : List Char :=
  match w with
  | [] => s
  | wh :: wt => pyWordSubGo wh wt repl false 0 s

/-- `re.search(r'def\s+(\w+)', sig)` step: at a position right after a matched
keyword, `\s+` then a non-empty `\w+` capture. -/
def wsThenWord (s : List Char) : Option (List Char) :=
  match s with
  | [] => none
  | c :: _ =>
    if isPySpace c then
      let w := (s.dropWhile isPySpace).takeWhile isWordChar
      if w = [] then none else some w
    else none

/-- Leftmost match of `def\s+(\w+)` (PythonRunner._create_test_file:70, and the
last TypeScript fallback). -/
def findDefName : List Char → Option (List Char)
  | [] => none
  | c :: t =>
    if "def".toList.isPrefixOf (c :: t) then
      match wsThenWord ((c :: t).drop 3) with
      | some w => some w
      | none => findDefName t
    else findDefName t

/-- Alternative head of `(?:function|const|export\s+function)` at one position
(the three alternatives start with distinct letters, so at most one literal
head can match). -/
def tsKeywordAt (s : List Char) : Option (List Char) :=
  if "function".toList.isPrefixOf s then some (s.drop 8)
  else if "const".toList.isPrefixOf s then some (s.drop 5)
  else if "export".toList.isPrefixOf s then
    match (s.drop 6).head? with
    | some c =>
      if isPySpace c then
        let r := (s.drop 6).dropWhile isPySpace
        if "function".toList.isPrefixOf r then some (r.drop 8) else none
      else none
    | none => none
  else none

/-- Leftmost match of `(?:function|const|export\s+function)\s+(\w+)`
(TypeScriptRunner._create_test_file:113). -/
def findTsName1 : List Char → Option (List Char)
  | [] => none
  | c :: t =>
    match tsKeywordAt (c :: t) with
    | some rest =>
      match wsThenWord rest with
      | some w => some w
      | none => findTsName1 t
    | none => findTsName1 t

/-- Leftmost match of the fallback `(\w+)\s*[:=]`
(TypeScriptRunner._create_test_file:116). -/
def findTsName2 : List Char → Option (List Char)
  | [] => none
  | c :: t =>
    if isWordChar c then
      let w := (c :: t).takeWhile isWordChar
      match ((c :: t).dropWhile isWordChar).dropWhile isPySpace with
      | ':' :: _ => some w
      | '=' :: _ => some w
      | _ => findTsName2 t
    else findTsName2 t

/-- Entry-point extraction of `PythonRunner._create_test_file`: `None` models
the `ValueError` path. -/
def extractFuncNamePy (sig : String) : Option String :=
  (findDefName sig.toList).map String.mk

/-- Entry-point extraction of `TypeScriptRunner._create_test_file`: the
TypeScript pattern, then the `(\w+)\s*[:=]` fallback, then the Python-style
`def` fallback. -/
def extractFuncNameTs (sig : String) : Option String :=
  ((findTsName1 sig.toList <|> findTsName2 sig.toList) <|> findDefName sig.toList).map String.mk

/-! ## Python → TypeScript test-code conversion
(TypeScriptRunner._convert_python_to_ts, typescript_runner.py:259-294) -/

/-- Line splitting (`str.split('\n')`). -/
def splitNl : List Char → List (List Char)
  | [] => [[]]
  | c :: t =>
    if c = '\n' then [] :: splitNl t
    else
      match splitNl t with
      | [] => [[c]]
      | l :: ls => (c :: l) :: ls

/-- `'\n'.join`. -/
def joinNl : List (List Char) → List Char
  | [] => []
  | [l] => l
  | l :: ls => l ++ '\n' :: joinNl ls

/-- Apply a per-line rewrite to every line (the shape of the `re.MULTILINE`
substitutions below, whose matches cannot span lines). -/
def mapLines (f : List Char → List Char) (s : List Char) : List Char :=
  joinNl ((splitNl s).map f)

/-- Tail test for the optional trailing comment group `(\s*#.*)?$`: the rest of
the line is empty or is whitespace followed by `#`. -/
def commentOrEnd (t : List Char) : Bool :=
  match t with
  | [] => true
  | _ :: _ => (t.dropWhile isPySpace).head? == some '#'

/-- Lazy `(.+?)` whose continuation is `(\s*#.*)?$`: the shortest non-empty
prefix after which the line ends or a comment starts. -/
def findLazyTail : List Char → Option (List Char)
  | [] => none
  | c :: t => if commentOrEnd t then some [c] else (findLazyTail t).map (fun g => c :: g)

/-- After a candidate end of the first capture group: `\s*SEP\s*` (maximal
whitespace skips; a shorter skip could only expose another whitespace
character, never the separator). -/
def eqSepAfter (sep t : List Char) : Option (List Char) :=
  let u := t.dropWhile isPySpace
  if sep.isPrefixOf u then some ((u.drop sep.length).dropWhile isPySpace) else none

/-- Lazy search for `(.+?)\s*SEP\s*(.+?)(\s*#.*)?$`: the first group grows from
one character; for each candidate, the separator is sought and then the second
group is sought lazily; on failure the first group grows. -/
def findG1G2 (sep : List Char) : List Char → Option (List Char × List Char)
  | [] => none
  | c :: t =>
    match eqSepAfter sep t with
    | some rest =>
      match findLazyTail rest with
      | some g2 => some ([c], g2)
      | none => (findG1G2 sep t).map (fun p => (c :: p.1, p.2))
    | none => (findG1G2 sep t).map (fun p => (c :: p.1, p.2))

/-- `assert` followed by at least one whitespace character: the fixed head of
all three assertion patterns. -/
def assertHeadWs (s : List Char) : Bool :=
  "assert".toList.isPrefixOf s
    && (match (s.drop 6).head? with
        | some c => isPySpace c
        | none => false)

/-- Anchored attempt of `assert\s+(.+?)\s*SEP\s*(.+?)(\s*#.*)?$` at the start
of `s`. -/
def tryAssertSep (sep s : List Char) : Option (List Char × List Char) :=
  if assertHeadWs s then findG1G2 sep ((s.drop 6).dropWhile isPySpace) else none

/-- Anchored attempt of the bare pattern `assert\s+(.+?)(\s*#.*)?$`. -/
def tryAssertBare (s : List Char) : Option (List Char) :=
  if assertHeadWs s then findLazyTail ((s.drop 6).dropWhile isPySpace) else none

/-- One line of `re.sub(r'assert\s+(.+?)\s*==\s*(.+?)(\s*#.*)?$',
r'assertDeepEquals(\1, \2);', code, flags=re.MULTILINE)`.  The pattern is
anchored at the line end, so a line admits at most one (leftmost) match, the
match extends to the end of the line, and a trailing comment is consumed and
dropped. -/
def subEqLine : List Char → List Char
  | [] => []
  | c :: t =>
    match tryAssertSep "==".toList (c :: t) with
    | some (g1, g2) =>
        "assertDeepEquals(".toList ++ g1 ++ ", ".toList ++ g2 ++ ");".toList
    | none => c :: subEqLine t

/-- One line of the `assert A != B` substitution (typescript_runner.py:279). -/
def subNeqLine : List Char → List Char
  | [] => []
  | c :: t =>
    match tryAssertSep "!=".toList (c :: t) with
    | some (g1, g2) =>
        "if (JSON.stringify(".toList ++ g1 ++ ") === JSON.stringify(".toList ++ g2
          ++ ")) throw new Error(\"Assertion failed: expected different values\");".toList
    | none => c :: subNeqLine t

/-- One line of the bare-assert substitution (typescript_runner.py:284). -/
def subBareLine : List Char → List Char
  | [] => []
  | c :: t =>
    match tryAssertBare (c :: t) with
    | some g1 =>
        "if (!(".toList ++ g1 ++ ")) throw new Error(\"Assertion failed\");".toList
    | none => c :: subBareLine t

/-- Scanner for `re.sub(r'(\s+)#', r'\1//', code)`.  A match keeps its
(maximal, greedy) whitespace run and rewrites the following `#` to `//`;
scanning resumes right after the `#`, whose own non-whitespace character is
what the next position sees as its predecessor.  Character by character this
is exactly: a `#` whose predecessor in the original text is whitespace becomes
`//`; everything else is copied. -/
def commentHashSubGo (prevSpace : Bool) : List Char → List Char
  | [] => []
  | c :: t =>
    if c = '#' && prevSpace then
      '/' :: '/' :: commentHashSubGo false t
    else
      c :: commentHashSubGo (isPySpace c) t

/-- `re.sub(r'(\s+)#', r'\1//', code)` (nothing precedes the first
character, so it starts with no pending whitespace). -/
def commentHashSub (s : List Char) : List Char := commentHashSubGo false s

/-- `code.replace('#', '//', 1)`. -/
def replaceFirstHash : List Char → List Char
  | [] => []
  | c :: t => if c = '#' then '/' :: '/' :: t else c :: replaceFirstHash t

/-- Final pass of `_convert_python_to_ts`: if the stripped code starts with
`#` (the first non-whitespace character — and hence the first `#` — is a
leading `#`), rewrite that first `#` to `//`. -/
def finalHashPass (c8 : List Char) : List Char :=
  if ((c8.dropWhile isPySpace).head? == some '#') then replaceFirstHash c8 else c8

/-- The passes of `_convert_python_to_ts` that run after the initial
`code.replace('solve', func_name)`: literal remapping, the three assertion
rewrites, and the comment rewrites, in source order. -/
def convertAfterSolve (code : List Char) : List Char :=
  finalHashPass (commentHashSub (mapLines subBareLine (mapLines subNeqLine (mapLines subEqLine
    (pyWordSub "None".toList "null".toList (pyWordSub "False".toList "false".toList
      (pyWordSub "True".toList "true".toList code)))))))

/-- `TypeScriptRunner._convert_python_to_ts(code, func_name)`. -/
def convertPyToTs (code funcName : List Char) : List Char :=
  convertAfterSolve (pyReplace "solve".toList funcName code)

/-! ## Test-case block extraction
(TypeScriptRunner._extract_test_functions / _add_test_function) -/

/-- Leading-whitespace count: `len(line) - len(line.lstrip())`. -/
def lstripLen (line : List Char) : Nat := (line.takeWhile isPySpace).length

/-- `str.strip`. -/
def stripList (l : List Char) : List Char :=
  ((l.dropWhile isPySpace).reverse.dropWhile isPySpace).reverse

/-- Head of `(?:def|function)` at one position (distinct first letters, so at
most one alternative matches). -/
def testDefKeywordAt (s : List Char) : Option (List Char) :=
  if "def".toList.isPrefixOf s then some (s.drop 3)
  else if "function".toList.isPrefixOf s then some (s.drop 8)
  else none

/-- Continuation `\s+test_(\w+)` after a matched keyword. -/
def wsTestName (s : List Char) : Option (List Char) :=
  match s with
  | [] => none
  | c :: _ =>
    if isPySpace c then
      let r := s.dropWhile isPySpace
      if "test_".toList.isPrefixOf r then
        let w := (r.drop 5).takeWhile isWordChar
        if w = [] then none else some w
      else none
    else none

/-- Leftmost match of `re.search(r'(?:def|function)\s+test_(\w+)', line)`. -/
def searchTestDef : List Char → Option (List Char)
  | [] => none
  | c :: t =>
    match testDefKeywordAt (c :: t) with
    | some rest =>
      match wsTestName rest with
      | some w => some w
      | none => searchTestDef t
    | none => searchTestDef t

/-- Dedent of `_add_test_function`: the first body line's indentation is the
base; `line[base_indent:]` when longer, `line.lstrip()` otherwise. -/
def dedentLines (body : List (List Char)) : List (List Char) :=
  match body with
  | [] => []
  | first :: _ =>
    let base := lstripLen first
    body.map (fun line =>
      if base < line.length then line.drop base else line.dropWhile isPySpace)

/-- `_add_test_function`: converted body wrapped into a `testFunctions.push`
statement. -/
def addTestFunction (name : List Char) (body : List (List Char)) (funcName : List Char) :
    List Char :=
  let testBody := convertPyToTs (joinNl (dedentLines body)) funcName
  "testFunctions.push(\x7bname: \"".toList ++ name
    ++ "\", fn: () => \x7b ".toList ++ testBody ++ " \x7d \x7d);".toList

/-- Mutable loop state of `_extract_test_functions`. -/
structure ExtractState where
  acc : List (List Char)
  current_name : Option (List Char)
  current_test : List (List Char)
  in_test : Bool
  indent_level : Nat
deriving Repr

/-- `line.lstrip().startswith(('}', ')', '#'))`. -/
def startsBracketOrHash (line : List Char) : Bool :=
  match (line.dropWhile isPySpace).head? with
  | some '}' => true
  | some ')' => true
  | some '#' => true
  | _ => false

/-- One iteration of the `for line in lines` loop of
`_extract_test_functions`. -/
def extractStep (funcName : List Char) (st : ExtractState) (line : List Char) :
    ExtractState :=
  if (containsSub "def test_".toList line || containsSub "function test_".toList line)
      && !st.in_test then
    match searchTestDef line with
    | some name =>
        { st with current_name := some name, current_test := [], in_test := true,
                  indent_level := lstripLen line }
    | none => st
  else if st.in_test then
    if stripList line = [] then st
    else if lstripLen line ≤ st.indent_level && !startsBracketOrHash line then
      let acc2 := match st.current_name with
        | some n => st.acc ++ [addTestFunction n st.current_test funcName]
        | none => st.acc
      let st2 : ExtractState :=
        { acc := acc2, current_name := none, current_test := [], in_test := false,
          indent_level := st.indent_level }
      if containsSub "def test_".toList line
          || containsSub "function test_".toList line then
        match searchTestDef line with
        | some name =>
            { st2 with current_name := some name, current_test := [], in_test := true,
                       indent_level := lstripLen line }
        | none => st2
      else st2
    else { st with current_test := st.current_test ++ [line] }
  else st

/-- `TypeScriptRunner._extract_test_functions(test_code, func_name)`. -/
def extractTestFunctions (test_code funcName : List Char) : List Char :=
  let lines := splitNl test_code
  let st := lines.foldl (extractStep funcName) ⟨[], none, [], false, 0⟩
  let acc :=
    match st.current_name, st.current_test with
    | some n, l :: ls => st.acc ++ [addTestFunction n (l :: ls) funcName]
    | _, _ => st.acc
  let acc2 :=
    if acc = [] && lines.any (fun l => containsSub "assert".toList l) then
      ["testFunctions.push(\x7bname: \"global_test\", fn: () => \x7b ".toList
        ++ convertPyToTs (joinNl lines) funcName ++ " \x7d \x7d);".toList]
    else acc
  if acc2 = [] then "// No tests found".toList else joinNl acc2

/-! ## Test-file synthesis -/

/-- Test-file body of `PythonRunner._create_test_file` given the extracted
entry-point name. -/
def pyTestFileContent (func_name test_code : String) : String :=
  "\nimport sys\nfrom pathlib import Path\n\n# ユーザーコードをインポート\nsys.path.insert(0, str(Path(__file__).parent))\nfrom solution import "
    ++ func_name
    ++ "\n\n# テストコード内で関数名をエイリアス（問題定義のテストコードは 'solve' を想定）\nsolve = "
    ++ func_name ++ "\n\n# 問題のテストコード\n" ++ test_code ++ "\n"

/-- The `assertDeepEquals` helper embedded verbatim in every synthesized
TypeScript test file: a deep structural equality check through JSON
serialization that throws a message carrying both serialized values. -/
def tsAssertHelper : String :=
  "function assertDeepEquals(actual: any, expected: any) \x7b\n    const actualStr = JSON.stringify(actual);\n    const expectedStr = JSON.stringify(expected);\n    if (actualStr !== expectedStr) \x7b\n        throw new Error(`Assertion failed: expected $\x7bexpectedStr\x7d, got $\x7bactualStr\x7d`);\n    \x7d\n\x7d"

/-- Template text before the helper (with the imported entry-point name). -/
def tsTestFilePrefix (name : String) : String :=
  "\nimport \x7b " ++ name
    ++ " \x7d from './solution.js';\n\n// ヘルパー関数: ディープイコールによるアサーション\n"

/-- Template text between the helper and the generated test functions. -/
def tsTestFileMid : String :=
  "\n\n// テスト実行\nlet passed = 0;\nlet failed = 0;\nconst errors: string[] = [];\n\nconst runTest = (name: string, fn: () => void) => \x7b\n    try \x7b\n        fn();\n        passed++;\n        console.log(`✓ $\x7bname\x7d`);\n    \x7d catch (e: any) \x7b\n        failed++;\n        const errorMsg = e?.message || String(e);\n        errors.push(`✗ $\x7bname\x7d: $\x7berrorMsg\x7d`);\n        console.error(`✗ $\x7bname\x7d: $\x7berrorMsg\x7d`);\n    \x7d\n\x7d;\n\n// テスト関数を実行\nconst testFunctions: Array<\x7bname: string, fn: () => void\x7d> = [];\n\n"

/-- Template text after the generated test functions: the driver that runs
each case in isolation, tallies, and exits non-zero on any failure. -/
def tsTestFileSuffix : String :=
  "\n\nfor (const test of testFunctions) \x7b\n    runTest(test.name, test.fn);\n\x7d\n\nif (failed === 0) \x7b\n    console.log(`\\nSUCCESS: All $\x7bpassed\x7d test(s) passed`);\n    process.exit(0);\n\x7d else \x7b\n    console.log(`\\nFAILED: $\x7bfailed\x7d test(s) failed, $\x7bpassed\x7d passed`);\n    errors.forEach(e => console.error(e));\n    process.exit(1);\n\x7d\n"

/-- `TypeScriptRunner._create_test_file`'s template, assembled around the
extracted name and the generated test-function code. -/
def createTsTestFile (name testFnsCode : String) : String :=
  tsTestFilePrefix name ++ tsAssertHelper ++ tsTestFileMid ++ testFnsCode ++ tsTestFileSuffix

/-! ## Test-mode runners (PythonRunner.execute / TypeScriptRunner.execute) -/

/-- The result dictionary returned by `Runner.execute`
(keys `result`, `execution_time_sec`, `error_message`, `test_output`). -/
structure RunnerResult where
  result : String
  execution_time_sec : ℚ
  error_message : Option String
  test_output : Option String
deriving DecidableEq, Repr

/-- The dictionary returned by `execute` has no `"exit_code"` key:
`result.get("exit_code")` yields `None` for every test-mode result. -/
def RunnerResult.exit_code (_ : RunnerResult) : Option Int := none

/-- The dictionary returned by `execute` has no `"stdout"` key. -/
def RunnerResult.stdout (_ : RunnerResult) : Option String := none

/-- The dictionary returned by `execute` has no `"stderr"` key. -/
def RunnerResult.stderr (_ : RunnerResult) : Option String := none

/-- Result dictionary of `_run_pytest` / `_run_typescript`. -/
structure StepResult where
  status : String
  error_message : Option String
  test_output : Option String
deriving DecidableEq, Repr

/-- The `subprocess.run` call of `PythonRunner._run_pytest`: `pytest` on the
test file with a one-second grace period over the problem's limit. -/
def pytestSpec (testDir : String) (time_limit_sec : ℚ) (files : List (String × String)) :
    ProcSpec :=
  { cmd := ["pytest", testDir ++ "/test_solution.py", "-v", "--tb=short", "-x"]
    input := none
    timeout := time_limit_sec + 1
    cwd := testDir
    files := files }

/-- `PythonRunner._run_pytest` (python_runner.py:91-143): exit 0 ↦ success,
other exit ↦ failure, `TimeoutExpired` ↦ timeout with the configured limit in
the message, any other exception (including a missing `pytest` binary) ↦
error. -/
def run_pytest (proc : ProcOracle) (testDir : String) (time_limit_sec : ℚ)
    (files : List (String × String)) : StepResult :=
  match proc (pytestSpec testDir time_limit_sec files) with
  | .completed rc out err =>
      if rc = 0 then { status := "success", error_message := none, test_output := some out }
      else { status := "failure", error_message := some "テストが失敗しました",
             test_output := some (out ++ "\n" ++ err) }
  | .timedOut =>
      { status := "timeout", error_message := some (timeoutExpiredMsg time_limit_sec),
        test_output := none }
  | .fileNotFound msg =>
      { status := "error", error_message := some ("実行エラー: " ++ msg), test_output := none }
  | .otherError msg =>
      { status := "error", error_message := some ("実行エラー: " ++ msg), test_output := none }

/-- The `subprocess.run` call of `TypeScriptRunner._run_typescript`. -/
def tsRunSpec (testDir : String) (time_limit_sec : ℚ) (files : List (String × String)) :
    ProcSpec :=
  { cmd := ["npx", "--yes", "tsx", testDir ++ "/test.ts"]
    input := none
    timeout := time_limit_sec + 1
    cwd := testDir
    files := files }

/-- `TypeScriptRunner._run_typescript` (typescript_runner.py:296-348); unlike
the Python runner it gives `FileNotFoundError` a dedicated message. -/
def run_typescript_step (proc : ProcOracle) (testDir : String) (time_limit_sec : ℚ)
    (files : List (String × String)) : StepResult :=
  match proc (tsRunSpec testDir time_limit_sec files) with
  | .completed rc out err =>
      if rc = 0 then { status := "success", error_message := none, test_output := some out }
      else { status := "failure", error_message := some "テストが失敗しました",
             test_output := some (out ++ "\n" ++ err) }
  | .timedOut =>
      { status := "timeout", error_message := some (timeoutExpiredMsg time_limit_sec),
        test_output := none }
  | .fileNotFound _ =>
      { status := "error",
        error_message := some "tsxが見つかりません。Node.jsとtsxがインストールされていることを確認してください。",
        test_output := none }
  | .otherError msg =>
      { status := "error", error_message := some ("実行エラー: " ++ msg), test_output := none }

/-- A filesystem is the list of existing paths. -/
abbrev FS := List String

/-- `tempfile.TemporaryDirectory` as a context manager: the directory is
created, the body runs (possibly raising — the `Except.error` result), and on
every exit path `__exit__` removes the directory and everything under it. -/
def withTempDir (fs : FS) (tmp : String)
    (body : FS → Except String RunnerResult × FS) : Except String RunnerResult × FS :=
  let r := body (fs ++ [tmp])
  (r.1, r.2.filter (fun p => !(String.isPrefixOf tmp p)))

/-- `PythonRunner.execute` (python_runner.py:18-60).  `_create_test_file` is
called OUTSIDE the try/except, so its `ValueError` (no extractable entry-point
name) propagates out of `execute` — modelled as `Except.error`.  `_run_pytest`
catches every exception itself, so the surrounding `except` branch is dead
code. -/
def pythonExecute (proc : ProcOracle) (problem : Problem) (code : String)
    (tmp : String) (fs : FS) (elapsed : ℚ) : Except String RunnerResult × FS :=
  withTempDir fs tmp (fun fs0 =>
    let fs1 := fs0 ++ [tmp ++ "/solution.py"]
    match extractFuncNamePy problem.function_signature with
    | none =>
        (Except.error ("関数シグネチャから関数名を抽出できません: " ++ problem.function_signature),
         fs1)
    | some name =>
        let fs2 := fs1 ++ [tmp ++ "/test_solution.py"]
        let files := [(tmp ++ "/solution.py", code),
                      (tmp ++ "/test_solution.py", pyTestFileContent name problem.test_code)]
        let r := run_pytest proc tmp problem.time_limit_sec files
        (Except.ok { result := r.status, execution_time_sec := elapsed,
                     error_message := r.error_message, test_output := r.test_output }, fs2))

/-- `json.dumps(package_json, indent=2)` for the package descriptor written by
`TypeScriptRunner.execute`. -/
def tsPackageJsonContent : String :=
  "\x7b\n  \"name\": \"test-runner\",\n  \"version\": \"1.0.0\",\n  \"type\": \"module\"\n\x7d"

/-- `TypeScriptRunner.execute` (typescript_runner.py:28-101).  Here
`_create_test_file` IS wrapped in try/except: a signature with no extractable
name yields `result = "error"` with a generation-specific message (and
`execution_time_sec` 0, as in the source). -/
def tsExecute (proc : ProcOracle) (problem : Problem) (code : String)
    (tmp : String) (fs : FS) (elapsed : ℚ) : Except String RunnerResult × FS :=
  withTempDir fs tmp (fun fs0 =>
    let fs1 := fs0 ++ [tmp ++ "/package.json", tmp ++ "/solution.ts"]
    match extractFuncNameTs problem.function_signature with
    | none =>
        (Except.ok { result := "error", execution_time_sec := 0,
                     error_message := some ("テストコード生成エラー: 関数シグネチャから関数名を抽出できません: "
                       ++ problem.function_signature),
                     test_output := none }, fs1)
    | some name =>
        let testContent := createTsTestFile name
          (String.mk (extractTestFunctions problem.test_code.toList name.toList))
        let fs2 := fs1 ++ [tmp ++ "/test.ts"]
        let files := [(tmp ++ "/package.json", tsPackageJsonContent),
                      (tmp ++ "/solution.ts", code),
                      (tmp ++ "/test.ts", testContent)]
        let r := run_typescript_step proc tmp problem.time_limit_sec files
        (Except.ok { result := r.status, execution_time_sec := elapsed,
                     error_message := r.error_message, test_output := r.test_output }, fs2))

/-! ## Syntactic side conditions used to state the translation claims -/

/-- The first character (if any) is not whitespace. -/
def headNotSpace (l : List Char) : Bool :=
  match l.head? with
  | some c => !isPySpace c
  | none => true

/-- The last character (if any) is not whitespace. -/
def lastNotSpace (l : List Char) : Bool :=
  match l.getLast? with
  | some c => !isPySpace c
  | none => true

/-- Does `assert` followed by a whitespace character occur anywhere?  This is
the fixed head shared by the three assertion patterns, so a line without such
an occurrence is untouched by the assertion rewrites. -/
def hasAssertWs : List Char → Bool
  | [] => false
  | c :: t => assertHeadWs (c :: t) || hasAssertWs t

/-! ## API entry points (src/app/api/executions.py, submissions.py) -/

/-- Python's `x or d` on an optional float: `None` and `0.0` are falsy. -/
def pyOrQ (x : Option ℚ) (d : ℚ) : ℚ :=
  match x with
  | none => d
  | some v => if v = 0 then d else v

/-- Effective script-mode time limit of `run_code` (executions.py:76-91):
`time_limit = request.time_limit_sec`; when a problem is loaded,
`time_limit = time_limit or problem.time_limit_sec`; finally
`time_limit = float(time_limit or 2.0)`. -/
def effective_time_limit (override : Option ℚ) (problem : Option Problem) : ℚ :=
  let t : Option ℚ :=
    match problem with
    | some p => some (pyOrQ override p.time_limit_sec)
    | none => override
  pyOrQ t 2

/-- The amended fallback rule (what the code actually implements, stated
denotationally): a present NON-ZERO override wins; otherwise a present problem
with a non-zero limit wins; otherwise 2.0 seconds. -/
def effectiveTimeLimitAmended (override : Option ℚ) (problem : Option Problem) : ℚ :=
  let fallback : ℚ :=
    match problem with
    | some p => if p.time_limit_sec = 0 then 2 else p.time_limit_sec
    | none => 2
  match override with
  | some v => if v = 0 then fallback else v
  | none => fallback

/-- ASCII `str.lower` on one character. -/
def pyLowerChar (c : Char) : Char :=
  if 'A' ≤ c ∧ c ≤ 'Z' then Char.ofNat (c.toNat + 32) else c

/-- `str.lower` (ASCII; language identifiers are ASCII). -/
def pyLower (s : String) : String := String.mk (s.toList.map pyLowerChar)

/-- `str.strip` (Python's whitespace set). -/
def pyStrip (s : String) : String := String.mk (stripList s.toList)

/-- `Language(value)`: enum lookup by value; `None` models the `ValueError`. -/
def parseLang (s : String) : Option Lang :=
  if s = "python" then some .python
  else if s = "typescript" then some .typescript
  else none

/-- Language normalization of the script-mode `run_code` endpoint
(executions.py:67-74): `request.language.lower().strip()`, then the `"ts"`
alias is mapped to `"typescript"`, then enum lookup. -/
def runCodeLang (language : String) : Option Lang :=
  let raw := pyStrip (pyLower language)
  parseLang (if raw = "ts" then "typescript" else raw)

/-- Language validation of the test-mode `submit_code` endpoint
(submissions.py:61-64): `Language(request.language.lower())` — no strip and no
`"ts"` alias. -/
def submitCodeLang (language : String) : Option Lang :=
  parseLang (pyLower language)

/-- **C10**: for every requested `time_limit_sec`, including zero and negative
values, both script executors pass `max(0.1, time_limit_sec)` as the child
process timeout, so the effective kill deadline is never below 0.1 seconds. -/
theorem c10_script_timeout_clamped_at_tenth_second :
    (∀ tmpdir code stdin t,
        (pythonScriptSpec tmpdir code stdin t).timeout = max (1/10 : ℚ) t)
  ∧ (∀ tmpdir code stdin t,
        (1/10 : ℚ) ≤ (pythonScriptSpec tmpdir code stdin t).timeout)
  ∧ (∀ tmpdir code stdin t,
        (typescriptScriptSpec tmpdir code stdin t).timeout = max (1/10 : ℚ) t)
  ∧ (∀ tmpdir code stdin t,
        (1/10 : ℚ) ≤ (typescriptScriptSpec tmpdir code stdin t).timeout) :=
  ⟨fun _ _ _ _ => rfl, fun _ _ _ t => le_max_left _ t,
   fun _ _ _ _ => rfl, fun _ _ _ t => le_max_left _ t⟩

/-- **C4**: in script mode, if the child process completes then the status is
`"success"` iff the exit code is zero and `"error"` for any non-zero exit
code; the status `"failure"` is never produced by either script executor. -/
theorem c4_script_success_iff_zero_exit :
    (∀ proc code stdin t tmpdir elapsed rc out err,
        proc (pythonScriptSpec tmpdir code stdin t) = ProcOutcome.completed rc out err →
        ((run_python_script proc code stdin t tmpdir elapsed).status = "success" ↔ rc = 0)
        ∧ (rc ≠ 0 → (run_python_script proc code stdin t tmpdir elapsed).status = "error"))
  ∧ (∀ proc code stdin t tmpdir elapsed rc out err,
        proc (typescriptScriptSpec tmpdir code stdin t) = ProcOutcome.completed rc out err →
        ((run_typescript_script proc code stdin t tmpdir elapsed).status = "success" ↔ rc = 0)
        ∧ (rc ≠ 0 → (run_typescript_script proc code stdin t tmpdir elapsed).status = "error"))
  ∧ (∀ proc code stdin t tmpdir elapsed,
        (run_python_script proc code stdin t tmpdir elapsed).status ≠ "failure")
  ∧ (∀ proc code stdin t tmpdir elapsed,
        (run_typescript_script proc code stdin t tmpdir elapsed).status ≠ "failure") := by
  refine ⟨?_, ?_, ?_, ?_⟩
  · intro proc code stdin t tmpdir elapsed rc out err h
    rw [run_python_script, h]
    by_cases hrc : rc = 0 <;> simp [hrc]
  · intro proc code stdin t tmpdir elapsed rc out err h
    rw [run_typescript_script, h]
    by_cases hrc : rc = 0 <;> simp [hrc]
  · intro proc code stdin t tmpdir elapsed
    rw [run_python_script]
    cases proc (pythonScriptSpec tmpdir code stdin t) with
    | completed rc out err => by_cases hrc : rc = 0 <;> simp [hrc]
    | timedOut => simp
    | fileNotFound msg => simp
    | otherError msg => simp
  · intro proc code stdin t tmpdir elapsed
    rw [run_typescript_script]
    cases proc (typescriptScriptSpec tmpdir code stdin t) with
    | completed rc out err => by_cases hrc : rc = 0 <;> simp [hrc]
    | timedOut => simp
    | fileNotFound msg => simp
    | otherError msg => simp

/-- **C4 witness**: the two completion hypotheses discharged at a concrete
oracle that reports exit code 3. -/
theorem c4_script_success_iff_zero_exit_witness :
    ((run_python_script (fun _ => ProcOutcome.completed 3 "o" "e") "c" none 2 "/t" 1).status
        = "error")
  ∧ ((run_typescript_script (fun _ => ProcOutcome.completed 3 "o" "e") "c" none 2 "/t" 1).status
        = "error") :=
  ⟨(c4_script_success_iff_zero_exit.1 (fun _ => ProcOutcome.completed 3 "o" "e")
      "c" none 2 "/t" 1 3 "o" "e" rfl).2 (by decide),
   (c4_script_success_iff_zero_exit.2.1 (fun _ => ProcOutcome.completed 3 "o" "e")
      "c" none 2 "/t" 1 3 "o" "e" rfl).2 (by decide)⟩

/-- Helper: a `"timeout"` status from `_run_pytest` forces the timeout record
fields. -/
theorem run_pytest_timeout_shape (proc : ProcOracle) (testDir : String) (t : ℚ)
    (files : List (String × String)) :
    (run_pytest proc testDir t files).status = "timeout" →
    (run_pytest proc testDir t files).error_message = some (timeoutExpiredMsg t)
    ∧ (run_pytest proc testDir t files).test_output = none := by
  unfold run_pytest
  cases proc (pytestSpec testDir t files) with
  | completed rc out err => by_cases hrc : rc = 0 <;> simp [hrc]
  | timedOut => simp
  | fileNotFound msg => simp
  | otherError msg => simp

/-- Helper: a `"timeout"` status from `_run_typescript` forces the timeout
record fields. -/
theorem run_typescript_step_timeout_shape (proc : ProcOracle) (testDir : String) (t : ℚ)
    (files : List (String × String)) :
    (run_typescript_step proc testDir t files).status = "timeout" →
    (run_typescript_step proc testDir t files).error_message = some (timeoutExpiredMsg t)
    ∧ (run_typescript_step proc testDir t files).test_output = none := by
  unfold run_typescript_step
  cases proc (tsRunSpec testDir t files) with
  | completed rc out err => by_cases hrc : rc = 0 <;> simp [hrc]
  | timedOut => simp
  | fileNotFound msg => simp
  | otherError msg => simp

/-- **C2**: in script mode and in test mode, a `"timeout"` status comes with
null stdout/stderr (test-mode result dictionaries carry no stdout/stderr keys
at all) and an `error_message` stating the configured time limit. -/
theorem c2_timeout_null_output_and_limit_message :
    (∀ proc code stdin t tmpdir elapsed,
        (run_python_script proc code stdin t tmpdir elapsed).status = "timeout" →
          (run_python_script proc code stdin t tmpdir elapsed).stdout = none
          ∧ (run_python_script proc code stdin t tmpdir elapsed).stderr = none
          ∧ (run_python_script proc code stdin t tmpdir elapsed).error_message
              = some (timeoutExpiredMsg t))
  ∧ (∀ proc code stdin t tmpdir elapsed,
        (run_typescript_script proc code stdin t tmpdir elapsed).status = "timeout" →
          (run_typescript_script proc code stdin t tmpdir elapsed).stdout = none
          ∧ (run_typescript_script proc code stdin t tmpdir elapsed).stderr = none
          ∧ (run_typescript_script proc code stdin t tmpdir elapsed).error_message
              = some (timeoutExpiredMsg t))
  ∧ (∀ proc problem code tmp fs elapsed r,
        (pythonExecute proc problem code tmp fs elapsed).1 = Except.ok r →
        r.result = "timeout" →
          r.stdout = none ∧ r.stderr = none ∧ r.test_output = none
          ∧ r.error_message = some (timeoutExpiredMsg problem.time_limit_sec))
  ∧ (∀ proc problem code tmp fs elapsed r,
        (tsExecute proc problem code tmp fs elapsed).1 = Except.ok r →
        r.result = "timeout" →
          r.stdout = none ∧ r.stderr = none ∧ r.test_output = none
          ∧ r.error_message = some (timeoutExpiredMsg problem.time_limit_sec)) := by
  refine ⟨?_, ?_, ?_, ?_⟩
  · intro proc code stdin t tmpdir elapsed
    rw [run_python_script]
    cases proc (pythonScriptSpec tmpdir code stdin t) with
    | completed rc out err => by_cases hrc : rc = 0 <;> simp [hrc]
    | timedOut => simp
    | fileNotFound msg => simp
    | otherError msg => simp
  · intro proc code stdin t tmpdir elapsed
    rw [run_typescript_script]
    cases proc (typescriptScriptSpec tmpdir code stdin t) with
    | completed rc out err => by_cases hrc : rc = 0 <;> simp [hrc]
    | timedOut => simp
    | fileNotFound msg => simp
    | otherError msg => simp
  · intro proc problem code tmp fs elapsed r h1 h2
    rw [pythonExecute, withTempDir] at h1
    cases hx : extractFuncNamePy problem.function_signature with
    | none => rw [hx] at h1; exact absurd h1 (by simp)
    | some name =>
      rw [hx] at h1
      simp only [Except.ok.injEq] at h1
      subst h1
      refine ⟨rfl, rfl, ?_, ?_⟩
      · exact (run_pytest_timeout_shape _ _ _ _ h2).2
      · exact (run_pytest_timeout_shape _ _ _ _ h2).1
  · intro proc problem code tmp fs elapsed r h1 h2
    rw [tsExecute, withTempDir] at h1
    cases hx : extractFuncNameTs problem.function_signature with
    | none =>
      rw [hx] at h1
      simp only [Except.ok.injEq] at h1
      subst h1
      simp at h2
    | some name =>
      rw [hx] at h1
      simp only [Except.ok.injEq] at h1
      subst h1
      refine ⟨rfl, rfl, ?_, ?_⟩
      · exact (run_typescript_step_timeout_shape _ _ _ _ h2).2
      · exact (run_typescript_step_timeout_shape _ _ _ _ h2).1

/-- **C2 witness**: the four timeout hypotheses discharged with an oracle that
always reports `TimeoutExpired`, on a problem whose limit is 2 seconds. -/
theorem c2_timeout_null_output_and_limit_message_witness :
    ((run_python_script (fun _ => ProcOutcome.timedOut) "c" none 2 "/t" 1).stdout = none
      ∧ (run_python_script (fun _ => ProcOutcome.timedOut) "c" none 2 "/t" 1).stderr = none
      ∧ (run_python_script (fun _ => ProcOutcome.timedOut) "c" none 2 "/t" 1).error_message
          = some (timeoutExpiredMsg 2))
  ∧ ((run_typescript_script (fun _ => ProcOutcome.timedOut) "c" none 2 "/t" 1).stdout = none
      ∧ (run_typescript_script (fun _ => ProcOutcome.timedOut) "c" none 2 "/t" 1).stderr = none
      ∧ (run_typescript_script (fun _ => ProcOutcome.timedOut) "c" none 2 "/t" 1).error_message
          = some (timeoutExpiredMsg 2))
  ∧ (RunnerResult.stdout ⟨"timeout", 1, some (timeoutExpiredMsg 2), none⟩ = none
      ∧ RunnerResult.stderr ⟨"timeout", 1, some (timeoutExpiredMsg 2), none⟩ = none
      ∧ (⟨"timeout", 1, some (timeoutExpiredMsg 2), none⟩ : RunnerResult).test_output = none
      ∧ (⟨"timeout", 1, some (timeoutExpiredMsg 2), none⟩ : RunnerResult).error_message
          = some (timeoutExpiredMsg 2))
  ∧ (RunnerResult.stdout ⟨"timeout", 1, some (timeoutExpiredMsg 2), none⟩ = none
      ∧ RunnerResult.stderr ⟨"timeout", 1, some (timeoutExpiredMsg 2), none⟩ = none
      ∧ (⟨"timeout", 1, some (timeoutExpiredMsg 2), none⟩ : RunnerResult).test_output = none
      ∧ (⟨"timeout", 1, some (timeoutExpiredMsg 2), none⟩ : RunnerResult).error_message
          = some (timeoutExpiredMsg 2)) :=
  ⟨c2_timeout_null_output_and_limit_message.1 (fun _ => ProcOutcome.timedOut) "c" none 2 "/t" 1 rfl,
   c2_timeout_null_output_and_limit_message.2.1 (fun _ => ProcOutcome.timedOut) "c" none 2 "/t" 1 rfl,
   c2_timeout_null_output_and_limit_message.2.2.1 (fun _ => ProcOutcome.timedOut)
     ⟨"p1", "def solve(x):", "assert solve(1) == 1", 2, none⟩ "c" "/t" [] 1
     ⟨"timeout", 1, some (timeoutExpiredMsg 2), none⟩ rfl rfl,
   c2_timeout_null_output_and_limit_message.2.2.2 (fun _ => ProcOutcome.timedOut)
     ⟨"p1", "function solve(x: number): number", "assert solve(1) == 1", 2, none⟩ "c" "/t" [] 1
     ⟨"timeout", 1, some (timeoutExpiredMsg 2), none⟩ rfl rfl⟩

/-- **C1**: at the failing input the claim breaks: `PythonRunner.execute`
calls `_create_test_file` outside its try/except, so a `Problem` whose
function signature has no extractable entry-point name makes `execute` raise
`ValueError` past its boundary instead of returning `result = "error"`;
`TypeScriptRunner.execute`, which wraps `_create_test_file` in try/except,
does return the harness-generation error record the claim describes. -/
theorem c1_python_runner_raises_on_malformed_signature :
    (∀ (proc : ProcOracle) (code tc : String) (fs : FS) (elapsed : ℚ),
        (pythonExecute proc ⟨"ct-001", "solve(x: int) -> int", tc, 2, none⟩
            code "/tmp/w" fs elapsed).1
          = Except.error "関数シグネチャから関数名を抽出できません: solve(x: int) -> int")
  ∧ (∀ (proc : ProcOracle) (code tc : String) (fs : FS) (elapsed : ℚ),
        (tsExecute proc ⟨"ct-001", "???", tc, 2, none⟩ code "/tmp/w" fs elapsed).1
          = Except.ok ⟨"error", 0,
              some "テストコード生成エラー: 関数シグネチャから関数名を抽出できません: ???", none⟩) :=
  ⟨fun _ _ _ _ _ => rfl, fun _ _ _ _ _ => rfl⟩

/-- **C3 counterexample**: a test-mode execution that succeeds (`pytest` exits
0, so the claim's "status ∈ {success, failure}" premise holds) returns a
result record with NO process exit code — `result.get("exit_code")` is `None`
— refuting "the returned result record contains a present, non-null process
exit code" for test mode. -/
theorem c3_counterexample_test_mode_has_no_exit_code :
    ((pythonExecute (fun _ => ProcOutcome.completed 0 "ok" "")
        ⟨"p1", "def solve(x):", "assert solve(1) == 1", 2, none⟩
        "x" "/t" [] 1).1.toOption.map RunnerResult.result = some "success")
  ∧ ((pythonExecute (fun _ => ProcOutcome.completed 0 "ok" "")
        ⟨"p1", "def solve(x):", "assert solve(1) == 1", 2, none⟩
        "x" "/t" [] 1).1.toOption.map RunnerResult.exit_code = some none) :=
  ⟨rfl, rfl⟩

/-- **C3 (amended)**: in script mode a `"success"` or `"failure"` status comes
with a present exit code (in fact `"failure"` never occurs there); test-mode
runner results carry no exit-code field at all, whatever the status. -/
theorem c3_amended_exit_code_presence :
    (∀ proc code stdin t tmpdir elapsed,
        ((run_python_script proc code stdin t tmpdir elapsed).status = "success"
          ∨ (run_python_script proc code stdin t tmpdir elapsed).status = "failure") →
        (run_python_script proc code stdin t tmpdir elapsed).exit_code.isSome = true)
  ∧ (∀ proc code stdin t tmpdir elapsed,
        ((run_typescript_script proc code stdin t tmpdir elapsed).status = "success"
          ∨ (run_typescript_script proc code stdin t tmpdir elapsed).status = "failure") →
        (run_typescript_script proc code stdin t tmpdir elapsed).exit_code.isSome = true)
  ∧ (∀ proc problem code tmp fs elapsed r,
        (pythonExecute proc problem code tmp fs elapsed).1 = Except.ok r →
        r.exit_code = none)
  ∧ (∀ proc problem code tmp fs elapsed r,
        (tsExecute proc problem code tmp fs elapsed).1 = Except.ok r →
        r.exit_code = none) := by
  refine ⟨?_, ?_, fun _ _ _ _ _ _ _ _ => rfl, fun _ _ _ _ _ _ _ _ => rfl⟩
  · intro proc code stdin t tmpdir elapsed
    rw [run_python_script]
    cases proc (pythonScriptSpec tmpdir code stdin t) with
    | completed rc out err => by_cases hrc : rc = 0 <;> simp [hrc]
    | timedOut => simp
    | fileNotFound msg => simp
    | otherError msg => simp
  · intro proc code stdin t tmpdir elapsed
    rw [run_typescript_script]
    cases proc (typescriptScriptSpec tmpdir code stdin t) with
    | completed rc out err => by_cases hrc : rc = 0 <;> simp [hrc]
    | timedOut => simp
    | fileNotFound msg => simp
    | otherError msg => simp

/-- **C3 (amended) witness**: the hypotheses discharged at a successful script
run and at concrete test-mode runs. -/
theorem c3_amended_exit_code_presence_witness :
    ((run_python_script (fun _ => ProcOutcome.completed 0 "o" "") "c" none 2 "/t" 1).exit_code.isSome
        = true)
  ∧ ((run_typescript_script (fun _ => ProcOutcome.completed 0 "o" "") "c" none 2 "/t" 1).exit_code.isSome
        = true)
  ∧ RunnerResult.exit_code ⟨"success", 1, none, some "ok"⟩ = none
  ∧ RunnerResult.exit_code ⟨"success", 1, none, some "ok"⟩ = none :=
  ⟨c3_amended_exit_code_presence.1 (fun _ => ProcOutcome.completed 0 "o" "") "c" none 2 "/t" 1
     (Or.inl rfl),
   c3_amended_exit_code_presence.2.1 (fun _ => ProcOutcome.completed 0 "o" "") "c" none 2 "/t" 1
     (Or.inl rfl),
   c3_amended_exit_code_presence.2.2.1 (fun _ => ProcOutcome.completed 0 "ok" "")
     ⟨"p1", "def solve(x):", "assert solve(1) == 1", 2, none⟩ "x" "/t" [] 1
     ⟨"success", 1, none, some "ok"⟩ rfl,
   c3_amended_exit_code_presence.2.2.2 (fun _ => ProcOutcome.completed 0 "ok" "")
     ⟨"p1", "function solve(x: number): number", "assert solve(1) == 1", 2, none⟩ "x" "/t" [] 1
     ⟨"success", 1, none, some "ok"⟩ rfl⟩

/-- Helper for C8: whatever the body does, `withTempDir` leaves no path under
the temporary directory. -/
theorem withTempDir_cleanup (fs : FS) (tmp : String)
    (body : FS → Except String RunnerResult × FS) :
    ((withTempDir fs tmp body).2).filter (fun p => String.isPrefixOf tmp p) = [] := by
  show ((body (fs ++ [tmp])).2.filter (fun p => !(String.isPrefixOf tmp p))).filter
      (fun p => String.isPrefixOf tmp p) = []
  generalize (body (fs ++ [tmp])).2 = l
  induction l with
  | nil => rfl
  | cons a t ih =>
    by_cases h : String.isPrefixOf tmp a = true <;>
      simp only [List.filter_cons, h, Bool.not_true, Bool.not_false, if_true, if_false,
        ite_true, ite_false] <;> simp [h, ih]

/-- **C8**: after either test-mode `execute` returns — on the normal paths and
on the raising path alike — no path under the per-execution temporary
workspace directory remains in the filesystem. -/
theorem c8_workspace_fully_reclaimed :
    (∀ proc problem code tmp fs elapsed,
        ((pythonExecute proc problem code tmp fs elapsed).2).filter
          (fun p => String.isPrefixOf tmp p) = [])
  ∧ (∀ proc problem code tmp fs elapsed,
        ((tsExecute proc problem code tmp fs elapsed).2).filter
          (fun p => String.isPrefixOf tmp p) = []) :=
  ⟨fun _ _ _ tmp fs _ => withTempDir_cleanup fs tmp _,
   fun _ _ _ tmp fs _ => withTempDir_cleanup fs tmp _⟩

/-- **C6 counterexample**: an explicit override of `0.0` seconds with no
problem referenced yields an effective limit of 2.0 seconds, not the override:
Python's falsy `or` swallows a zero override. -/
theorem c6_counterexample_zero_override_ignored :
    effective_time_limit (some 0) none = 2 ∧ (2 : ℚ) ≠ 0 := by
  constructor
  · rfl
  · norm_num

/-- **C6 (amended)**: the effective script-mode limit is the override when
present AND non-zero; otherwise the problem's limit when a problem is
referenced and its limit is non-zero; otherwise the fixed default 2.0 s. -/
theorem c6_amended_fallback_chain :
    ∀ override problem,
      effective_time_limit override problem = effectiveTimeLimitAmended override problem := by
  intro o p
  cases o with
  | none =>
    cases p with
    | none => rfl
    | some pr =>
      by_cases h : pr.time_limit_sec = 0 <;>
        simp [effective_time_limit, effectiveTimeLimitAmended, pyOrQ, h]
  | some v =>
    cases p with
    | none =>
      by_cases hv : v = 0 <;>
        simp [effective_time_limit, effectiveTimeLimitAmended, pyOrQ, hv]
    | some pr =>
      by_cases hv : v = 0 <;> by_cases hp : pr.time_limit_sec = 0 <;>
        simp [effective_time_limit, effectiveTimeLimitAmended, pyOrQ, hv, hp]

/-- **C7 counterexample**: the test-mode `submit_code` endpoint does not
accept the documented `"ts"` alias — `Language("ts".lower())` raises
`ValueError` (modelled as `none`), while the script-mode endpoint maps it. -/
theorem c7_counterexample_submit_rejects_ts_alias :
    submitCodeLang "ts" = none ∧ runCodeLang "ts" = some Lang.typescript := by
  constructor
  · decide
  · decide

/-- **C7 (amended)**: both endpoints lowercase the identifier before matching
(case-insensitive); but only the script-mode `run_code` endpoint also strips
surrounding whitespace and maps the `"ts"` alias to `"typescript"` —
`submit_code` rejects `"ts"` and unstripped identifiers. -/
theorem c7_amended_language_normalization :
    (∀ s, submitCodeLang s = parseLang (pyLower s))
  ∧ runCodeLang "ts" = some Lang.typescript
  ∧ runCodeLang "TS" = some Lang.typescript
  ∧ runCodeLang " Ts " = some Lang.typescript
  ∧ runCodeLang "PYTHON" = some Lang.python
  ∧ runCodeLang "TypeScript" = some Lang.typescript
  ∧ submitCodeLang "PYTHON" = some Lang.python
  ∧ submitCodeLang "TypeScript" = some Lang.typescript
  ∧ submitCodeLang "ts" = none
  ∧ submitCodeLang " python " = none :=
  ⟨fun _ => rfl, by decide, by decide, by decide, by decide, by decide, by decide,
   by decide, by decide, by decide⟩

/-! ### Helper lemmas for the translation claims (C5, C9) -/

/-- A word-boundary substitution leaves a string without the word unchanged. -/
theorem pyWordSubGo_id (wh : Char) (wt repl : List Char) :
    ∀ (s : List Char) (prevWord : Bool),
      containsSub (wh :: wt) s = false → pyWordSubGo wh wt repl prevWord 0 s = s := by
  intro s
  induction s with
  | nil => intro _ _; rfl
  | cons c t ih =>
    intro prevWord h
    rw [containsSub, Bool.or_eq_false_iff] at h
    rw [pyWordSubGo, h.1]
    simp [ih _ h.2]

/-- `pyWordSub` is the identity when the word does not occur. -/
theorem pyWordSub_id (w repl s : List Char) (h : containsSub w s = false) :
    pyWordSub w repl s = s := by
  cases w with
  | nil => rfl
  | cons wh wt => exact pyWordSubGo_id wh wt repl s false h

/-- `replaceAllGo` is the identity when the pattern does not occur. -/
theorem replaceAllGo_id (ph : Char) (pt repl : List Char) :
    ∀ s : List Char, containsSub (ph :: pt) s = false → replaceAllGo ph pt repl 0 s = s := by
  intro s
  induction s with
  | nil => intro _; rfl
  | cons c t ih =>
    intro h
    rw [containsSub, Bool.or_eq_false_iff] at h
    rw [replaceAllGo, if_neg (by rw [h.1]; exact Bool.false_ne_true)]
    rw [ih h.2]

/-- `str.replace` is the identity when the pattern does not occur. -/
theorem pyReplace_id (pat repl s : List Char) (h : containsSub pat s = false) :
    pyReplace pat repl s = s := by
  cases pat with
  | nil => rfl
  | cons ph pt => exact replaceAllGo_id ph pt repl s h

/-- `dropWhile` stops immediately on a non-space head. -/
theorem dropWhile_headNotSpace (l : List Char) (hne : l ≠ []) (h : headNotSpace l = true) :
    l.dropWhile isPySpace = l := by
  cases l with
  | nil => rfl
  | cons c t =>
    unfold headNotSpace at h
    simp only [List.head?_cons, Bool.not_eq_true'] at h
    rw [List.dropWhile_cons, if_neg (by rw [h]; exact Bool.false_ne_true)]

/-- `dropWhile` on an append stops inside the non-space-headed left part. -/
theorem dropWhile_append_headNotSpace (l r : List Char) (hne : l ≠ [])
    (h : headNotSpace l = true) : (l ++ r).dropWhile isPySpace = l ++ r := by
  cases l with
  | nil => exact absurd rfl hne
  | cons c t =>
    unfold headNotSpace at h
    simp only [List.head?_cons, Bool.not_eq_true'] at h
    rw [List.cons_append, List.dropWhile_cons, if_neg (by rw [h]; exact Bool.false_ne_true)]

/-- `dropWhile` distributes over an append whose left part survives. -/
theorem dropWhile_append_of_ne_nil (p : Char → Bool) :
    ∀ (l r : List Char), l.dropWhile p ≠ [] →
      (l ++ r).dropWhile p = l.dropWhile p ++ r := by
  intro l
  induction l with
  | nil => intro r h; exact absurd rfl h
  | cons c t ih =>
    intro r h
    by_cases hc : p c = true
    · rw [List.dropWhile_cons, if_pos hc] at h ⊢
      rw [List.cons_append, List.dropWhile_cons, if_pos hc]
      exact ih r h
    · rw [List.dropWhile_cons, if_neg hc]
      rw [List.cons_append, List.dropWhile_cons, if_neg hc]

/-- A list that ends in a non-space character does not dissolve under
`dropWhile isPySpace`. -/
theorem dropWhile_ne_nil_of_lastNotSpace (l : List Char) (hl : l ≠ [])
    (h : lastNotSpace l = true) : l.dropWhile isPySpace ≠ [] := by
  intro hnil
  rw [List.dropWhile_eq_nil_iff] at hnil
  unfold lastNotSpace at h
  rw [List.getLast?_eq_getLast l hl] at h
  simp only [Bool.not_eq_true'] at h
  exact absurd (hnil _ (List.getLast_mem hl)) (by rw [h]; exact Bool.false_ne_true)

/-- Membership from `head?`. -/
theorem mem_of_headq_some (l : List Char) (x : Char) (h : l.head? = some x) : x ∈ l := by
  cases l with
  | nil => simp at h
  | cons a u =>
    simp only [List.head?_cons, Option.some.injEq] at h
    rw [← h]
    exact List.mem_cons_self a u

/-- `findLazyTail` consumes a whole non-empty `#`-free remainder. -/
theorem findLazyTail_full : ∀ v : List Char, v ≠ [] → '#' ∉ v →
    findLazyTail v = some v := by
  intro v
  induction v with
  | nil => intro h _; exact absurd rfl h
  | cons c t ih =>
    intro _ hmem
    cases t with
    | nil => rfl
    | cons d t2 =>
      have hco : commentOrEnd (d :: t2) = false := by
        unfold commentOrEnd
        cases hd : ((d :: t2).dropWhile isPySpace).head? with
        | none => rfl
        | some x =>
          have hx0 : x ∈ List.dropWhile isPySpace (d :: t2) := mem_of_headq_some _ _ hd
          have hx : x ∈ d :: t2 := (List.dropWhile_sublist _).subset hx0
          have hxne : x ≠ '#' := fun hcontr =>
            hmem (hcontr ▸ (List.mem_cons_of_mem c hx))
          simp [hd, hxne]
      rw [findLazyTail, hco]
      simp only [Bool.false_eq_true, if_false]
      rw [ih (by simp) (fun hm => hmem (List.mem_cons_of_mem c hm))]
      rfl

/-- A string with `==` as prefix contains `'='`. -/
theorem eqeq_prefix_mem (u : List Char) (h : "==".toList.isPrefixOf u = true) : '=' ∈ u := by
  cases u with
  | nil => simp [List.isPrefixOf] at h
  | cons a t => simp only [List.isPrefixOf, Bool.and_eq_true, beq_iff_eq] at h
                rw [← h.1]
                exact List.mem_cons_self _ _

/-- A string with `!=` as prefix contains `'='`. -/
theorem neq_prefix_mem (u : List Char) (h : "!=".toList.isPrefixOf u = true) : '=' ∈ u := by
  cases u with
  | nil => simp [List.isPrefixOf] at h
  | cons a t =>
    cases t with
    | nil => simp [List.isPrefixOf] at h
    | cons b t2 =>
      simp only [List.isPrefixOf, Bool.and_eq_true, beq_iff_eq] at h
      rw [← h.2.1]
      exact List.mem_cons_of_mem _ (List.mem_cons_self _ _)

/-- The separator search fails on `'='`-free text (for both separators). -/
theorem eqSepAfter_none_of_no_eq (sep t : List Char)
    (hsep : ∀ u : List Char, sep.isPrefixOf u = true → '=' ∈ u)
    (ht : '=' ∉ t) : eqSepAfter sep t = none := by
  unfold eqSepAfter
  cases hpre : sep.isPrefixOf (t.dropWhile isPySpace) with
  | true =>
    have hm : '=' ∈ t.dropWhile isPySpace := hsep _ hpre
    exact absurd ((List.dropWhile_sublist _).subset hm) ht
  | false => simp [hpre]

/-- `findG1G2` fails on `'='`-free text. -/
theorem findG1G2_none_of_no_eq (sep : List Char)
    (hsep : ∀ u : List Char, sep.isPrefixOf u = true → '=' ∈ u) :
    ∀ s : List Char, '=' ∉ s → findG1G2 sep s = none := by
  intro s
  induction s with
  | nil => intro _; rfl
  | cons c t ih =>
    intro h
    rw [findG1G2,
        eqSepAfter_none_of_no_eq sep t hsep (fun hm => h (List.mem_cons_of_mem c hm)),
        ih (fun hm => h (List.mem_cons_of_mem c hm))]
    rfl

/-- The `==` rewrite leaves an `'='`-free line unchanged. -/
theorem subEqLine_id_of_no_eq : ∀ s : List Char, '=' ∉ s → subEqLine s = s := by
  intro s
  induction s with
  | nil => intro _; rfl
  | cons c t ih =>
    intro h
    have hnone : tryAssertSep "==".toList (c :: t) = none := by
      unfold tryAssertSep
      cases haw : assertHeadWs (c :: t) with
      | false => simp [haw]
      | true =>
        simp only [haw, if_true]
        refine findG1G2_none_of_no_eq _ eqeq_prefix_mem _ (fun hm => h ?_)
        exact (List.drop_sublist 6 (c :: t)).subset ((List.dropWhile_sublist _).subset hm)
    rw [subEqLine, hnone]
    rw [ih (fun hm => h (List.mem_cons_of_mem c hm))]

/-- The `!=` rewrite leaves an `'='`-free line unchanged. -/
theorem subNeqLine_id_of_no_eq : ∀ s : List Char, '=' ∉ s → subNeqLine s = s := by
  intro s
  induction s with
  | nil => intro _; rfl
  | cons c t ih =>
    intro h
    have hnone : tryAssertSep "!=".toList (c :: t) = none := by
      unfold tryAssertSep
      cases haw : assertHeadWs (c :: t) with
      | false => simp [haw]
      | true =>
        simp only [haw, if_true]
        refine findG1G2_none_of_no_eq _ neq_prefix_mem _ (fun hm => h ?_)
        exact (List.drop_sublist 6 (c :: t)).subset ((List.dropWhile_sublist _).subset hm)
    rw [subNeqLine, hnone]
    rw [ih (fun hm => h (List.mem_cons_of_mem c hm))]

/-- The `!=` rewrite leaves a line without `assert`-plus-whitespace
unchanged. -/
theorem subNeqLine_id_of_no_assert : ∀ s : List Char, hasAssertWs s = false →
    subNeqLine s = s := by
  intro s
  induction s with
  | nil => intro _; rfl
  | cons c t ih =>
    intro h
    rw [hasAssertWs, Bool.or_eq_false_iff] at h
    have hnone : tryAssertSep "!=".toList (c :: t) = none := by
      unfold tryAssertSep
      simp [h.1]
    rw [subNeqLine, hnone, ih h.2]

/-- The bare-assert rewrite leaves a line without `assert`-plus-whitespace
unchanged. -/
theorem subBareLine_id_of_no_assert : ∀ s : List Char, hasAssertWs s = false →
    subBareLine s = s := by
  intro s
  induction s with
  | nil => intro _; rfl
  | cons c t ih =>
    intro h
    rw [hasAssertWs, Bool.or_eq_false_iff] at h
    have hnone : tryAssertBare (c :: t) = none := by
      unfold tryAssertBare
      simp [h.1]
    rw [subBareLine, hnone, ih h.2]

/-- The comment rewrite leaves a `'#'`-free text unchanged. -/
theorem commentHashSubGo_id : ∀ (s : List Char), '#' ∉ s →
    ∀ b : Bool, commentHashSubGo b s = s := by
  intro s
  induction s with
  | nil => intro _ _; rfl
  | cons c t ih =>
    intro hmem b
    have hc : ¬(c = '#') := fun hcontr => hmem (hcontr ▸ List.mem_cons_self c t)
    rw [commentHashSubGo, if_neg (by simp [hc])]
    rw [ih (fun hm => hmem (List.mem_cons_of_mem c hm)) _]

/-- The comment rewrite leaves a `'#'`-free text unchanged. -/
theorem commentHashSub_id (s : List Char) (h : '#' ∉ s) : commentHashSub s = s :=
  commentHashSubGo_id s h false

/-- A newline-free text is a single line. -/
theorem splitNl_no_nl : ∀ s : List Char, '\n' ∉ s → splitNl s = [s] := by
  intro s
  induction s with
  | nil => intro _; rfl
  | cons c t ih =>
    intro h
    have hc : ¬(c = '\n') := fun hcontr => h (hcontr ▸ List.mem_cons_self c t)
    rw [splitNl, if_neg hc, ih (fun hm => h (List.mem_cons_of_mem c hm))]

/-- `mapLines` on a newline-free text is just the line rewrite. -/
theorem mapLines_single (f : List Char → List Char) (s : List Char) (h : '\n' ∉ s) :
    mapLines f s = f s := by
  rw [mapLines, splitNl_no_nl s h]
  rfl

/-- `lastNotSpace` ignores a leading character of a longer list. -/
theorem lastNotSpace_cons_cons (x y : Char) (e3 : List Char) :
    lastNotSpace (x :: y :: e3) = lastNotSpace (y :: e3) := by
  unfold lastNotSpace
  rw [List.getLast?_cons_cons]

/-- Lazy-group search on `<expr> == <expected>`: the first group is exactly
`<expr>` (its `'='`-freeness and non-space tail make earlier or later splits
impossible) and the second group is exactly `<expected>`. -/
theorem findG1G2_concat (v : List Char) (hv : v ≠ []) (hvh : headNotSpace v = true)
    (hvhash : '#' ∉ v) :
    ∀ e : List Char, e ≠ [] → lastNotSpace e = true → '=' ∉ e →
      findG1G2 "==".toList (e ++ (" == ".toList ++ v)) = some (e, v) := by
  intro e
  induction e with
  | nil => intro h _ _; exact absurd rfl h
  | cons x e2 ih =>
    intro _ hlast heq
    cases e2 with
    | nil =>
      rw [List.singleton_append, findG1G2]
      have h1 : eqSepAfter "==".toList (" == ".toList ++ v) = some v := by
        unfold eqSepAfter
        have hd : (" == ".toList ++ v).dropWhile isPySpace = '=' :: '=' :: ' ' :: v := by
          show (' ' :: '=' :: '=' :: ' ' :: v).dropWhile isPySpace = _
          rw [List.dropWhile_cons, if_pos (by decide), List.dropWhile_cons,
              if_neg (by decide)]
        rw [hd, if_pos (by rfl)]
        show some ((' ' :: v).dropWhile isPySpace) = some v
        rw [List.dropWhile_cons, if_pos (by decide), dropWhile_headNotSpace v hv hvh]
      rw [h1]
      dsimp only
      rw [findLazyTail_full v hv hvhash]
    | cons y e3 =>
      rw [List.cons_append, findG1G2]
      have hlast2 : lastNotSpace (y :: e3) = true := by
        rw [← lastNotSpace_cons_cons x y e3]; exact hlast
      have heq2 : '=' ∉ y :: e3 := fun hm => heq (List.mem_cons_of_mem x hm)
      have h0 : eqSepAfter "==".toList ((y :: e3) ++ (" == ".toList ++ v)) = none := by
        unfold eqSepAfter
        have hne : (y :: e3).dropWhile isPySpace ≠ [] :=
          dropWhile_ne_nil_of_lastNotSpace _ (by simp) hlast2
        obtain ⟨d, ds, hds⟩ := List.exists_cons_of_ne_nil hne
        have hdmem : d ∈ y :: e3 := (List.dropWhile_sublist _).subset
          (by rw [hds]; exact List.mem_cons_self _ _)
        have hdne : d ≠ '=' := fun hcontr => heq2 (hcontr ▸ hdmem)
        rw [dropWhile_append_of_ne_nil _ _ _ hne, hds, List.cons_append]
        have hpre : ¬("==".toList.isPrefixOf (d :: (ds ++ (" == ".toList ++ v))) = true) := by
          intro hcontr
          rw [show "==".toList = ['=', '='] from rfl] at hcontr
          simp only [List.isPrefixOf, Bool.and_eq_true, beq_iff_eq] at hcontr
          exact hdne hcontr.1.symm
        rw [if_neg hpre]
      rw [h0, ih (by simp) hlast2 heq2]
      rfl

/-- The anchored `assert ... == ...` match on a canonical equality-assertion
line captures exactly the two operands. -/
theorem tryAssertSep_eq_concat (e v : List Char) (he : e ≠ []) (heh : headNotSpace e = true)
    (hel : lastNotSpace e = true) (heq : '=' ∉ e) (hv : v ≠ []) (hvh : headNotSpace v = true)
    (hvhash : '#' ∉ v) :
    tryAssertSep "==".toList
      ('a' :: 's' :: 's' :: 'e' :: 'r' :: 't' :: ' ' :: (e ++ (" == ".toList ++ v)))
      = some (e, v) := by
  unfold tryAssertSep
  rw [if_pos (by rfl)]
  show findG1G2 "==".toList ((' ' :: (e ++ (" == ".toList ++ v))).dropWhile isPySpace) = _
  rw [List.dropWhile_cons, if_pos (by decide), dropWhile_append_headNotSpace e _ he heh]
  exact findG1G2_concat v hv hvh hvhash e he hel heq

/-- The `==` rewrite on a canonical equality-assertion line. -/
theorem subEqLine_concat (e v : List Char) (he : e ≠ []) (heh : headNotSpace e = true)
    (hel : lastNotSpace e = true) (heq : '=' ∉ e) (hv : v ≠ []) (hvh : headNotSpace v = true)
    (hvhash : '#' ∉ v) :
    subEqLine ("assert ".toList ++ (e ++ (" == ".toList ++ v)))
      = "assertDeepEquals(".toList ++ e ++ ", ".toList ++ v ++ ");".toList := by
  show subEqLine ('a' :: 's' :: 's' :: 'e' :: 'r' :: 't' :: ' ' :: (e ++ (" == ".toList ++ v))) = _
  rw [subEqLine, tryAssertSep_eq_concat e v he heh hel heq hv hvh hvhash]

/-- The anchored bare-assert match captures the whole expression. -/
theorem tryAssertBare_concat (e : List Char) (he : e ≠ []) (heh : headNotSpace e = true)
    (hhash : '#' ∉ e) :
    tryAssertBare ('a' :: 's' :: 's' :: 'e' :: 'r' :: 't' :: ' ' :: e) = some e := by
  unfold tryAssertBare
  rw [if_pos (by rfl)]
  show findLazyTail ((' ' :: e).dropWhile isPySpace) = _
  rw [List.dropWhile_cons, if_pos (by decide), dropWhile_headNotSpace e he heh]
  exact findLazyTail_full e he hhash

/-- The bare-assert rewrite on a canonical truthiness-assertion line. -/
theorem subBareLine_concat (e : List Char) (he : e ≠ []) (heh : headNotSpace e = true)
    (hhash : '#' ∉ e) :
    subBareLine ("assert ".toList ++ e)
      = "if (!(".toList ++ e ++ ")) throw new Error(\"Assertion failed\");".toList := by
  show subBareLine ('a' :: 's' :: 's' :: 'e' :: 'r' :: 't' :: ' ' :: e) = _
  rw [subBareLine, tryAssertBare_concat e he heh hhash]

/-- Non-membership distributes over append. -/
theorem not_mem_append {a : Char} {x y : List Char} (hx : a ∉ x) (hy : a ∉ y) :
    a ∉ x ++ y := by
  intro hm
  rcases List.mem_append.mp hm with h | h
  · exact hx h
  · exact hy h

/-- A prefix occurrence is an occurrence. -/
theorem containsSub_of_isPrefixOf (p s : List Char) (h : p.isPrefixOf s = true) :
    containsSub p s = true := by
  cases s with
  | nil => rw [containsSub]; exact h
  | cons c t => rw [containsSub, h, Bool.true_or]

/-- Every list is a prefix of itself extended. -/
theorem isPrefixOf_append_self : ∀ (p y : List Char), p.isPrefixOf (p ++ y) = true := by
  intro p
  induction p with
  | nil => intro y; simp [List.isPrefixOf]
  | cons a p2 ih =>
    intro y
    rw [List.cons_append]
    simp [List.isPrefixOf, ih y]

/-- An explicitly placed occurrence is found. -/
theorem containsSub_of_append : ∀ (x : List Char) (p y : List Char),
    containsSub p (x ++ (p ++ y)) = true := by
  intro x
  induction x with
  | nil =>
    intro p y
    rw [List.nil_append]
    exact containsSub_of_isPrefixOf _ _ (isPrefixOf_append_self p y)
  | cons c t ih =>
    intro p y
    rw [List.cons_append, containsSub, ih p y, Bool.or_true]

/-- **C5**: the Python→TypeScript assertion translation.  (1) A canonical line
`assert <expr> == <expected>` — operands non-empty, not padded with
whitespace, `<expr>` free of `'='`, both free of `'#'`/newlines, the line free
of the literals the earlier passes rewrite, and the rewritten operands free of
a further `assert` token — becomes the deep-equality call
`assertDeepEquals(<expr>, <expected>);`.  (2) A bare `assert <expr>` becomes a
throw-if-falsy statement.  (3–5) The literals `True`/`False`/`None` are
remapped to `true`/`false`/`null` (shown on concrete canonical lines through
the full pipeline).  (6–7) Every synthesized test file embeds the
`assertDeepEquals` helper, whose mismatch error carries both serialized
values. -/
theorem c5_assertion_translation :
    (∀ e v f : List Char, e ≠ [] → v ≠ [] →
        headNotSpace e = true → lastNotSpace e = true → headNotSpace v = true →
        '=' ∉ e → '#' ∉ e → '#' ∉ v → '\n' ∉ e → '\n' ∉ v →
        containsSub "solve".toList ("assert ".toList ++ (e ++ (" == ".toList ++ v))) = false →
        containsSub "True".toList ("assert ".toList ++ (e ++ (" == ".toList ++ v))) = false →
        containsSub "False".toList ("assert ".toList ++ (e ++ (" == ".toList ++ v))) = false →
        containsSub "None".toList ("assert ".toList ++ (e ++ (" == ".toList ++ v))) = false →
        hasAssertWs ("assertDeepEquals(".toList ++ e ++ ", ".toList ++ v ++ ");".toList)
          = false →
        convertPyToTs ("assert ".toList ++ (e ++ (" == ".toList ++ v))) f
          = "assertDeepEquals(".toList ++ e ++ ", ".toList ++ v ++ ");".toList)
  ∧ (∀ e f : List Char, e ≠ [] →
        headNotSpace e = true → '=' ∉ e → '#' ∉ e → '\n' ∉ e →
        containsSub "solve".toList ("assert ".toList ++ e) = false →
        containsSub "True".toList ("assert ".toList ++ e) = false →
        containsSub "False".toList ("assert ".toList ++ e) = false →
        containsSub "None".toList ("assert ".toList ++ e) = false →
        hasAssertWs ("if (!(".toList ++ e
            ++ ")) throw new Error(\"Assertion failed\");".toList) = false →
        convertPyToTs ("assert ".toList ++ e) f
          = "if (!(".toList ++ e ++ ")) throw new Error(\"Assertion failed\");".toList)
  ∧ convertPyToTs "assert solve([2,7], 9) == True".toList "twoSum".toList
      = "assertDeepEquals(twoSum([2,7], 9), true);".toList
  ∧ convertPyToTs "assert solve(1) == False".toList "f".toList
      = "assertDeepEquals(f(1), false);".toList
  ∧ convertPyToTs "assert solve(1) == None".toList "f".toList
      = "assertDeepEquals(f(1), null);".toList
  ∧ (∀ name testFns : String,
        containsSub tsAssertHelper.toList (createTsTestFile name testFns).toList = true)
  ∧ containsSub
      "throw new Error(`Assertion failed: expected $\x7bexpectedStr\x7d, got $\x7bactualStr\x7d`);".toList
      tsAssertHelper.toList = true := by
  refine ⟨?_, ?_, by decide, by decide, by decide, ?_, by decide⟩
  · intro e v f he hv heh hel hvh heq hhe hhv hnle hnlv hsolve htrue hfalse hnone hassert
    have hnlL : '\n' ∉ "assert ".toList ++ (e ++ (" == ".toList ++ v)) :=
      not_mem_append (by decide) (not_mem_append hnle (not_mem_append (by decide) hnlv))
    have hnlR : '\n' ∉ "assertDeepEquals(".toList ++ e ++ ", ".toList ++ v ++ ");".toList :=
      not_mem_append (not_mem_append (not_mem_append (not_mem_append (by decide) hnle)
        (by decide)) hnlv) (by decide)
    have hhashR : '#' ∉ "assertDeepEquals(".toList ++ e ++ ", ".toList ++ v ++ ");".toList :=
      not_mem_append (not_mem_append (not_mem_append (not_mem_append (by decide) hhe)
        (by decide)) hhv) (by decide)
    unfold convertPyToTs
    rw [pyReplace_id _ _ _ hsolve]
    unfold convertAfterSolve
    rw [pyWordSub_id _ _ _ htrue]
    rw [pyWordSub_id _ _ _ hfalse]
    rw [pyWordSub_id _ _ _ hnone]
    rw [mapLines_single _ _ hnlL]
    rw [subEqLine_concat e v he heh hel heq hv hvh hhv]
    rw [mapLines_single _ _ hnlR]
    rw [subNeqLine_id_of_no_assert _ hassert]
    rw [mapLines_single _ _ hnlR]
    rw [subBareLine_id_of_no_assert _ hassert]
    rw [commentHashSub_id _ hhashR]
    unfold finalHashPass
    rw [if_neg (by
      intro hcontr
      rw [show ((("assertDeepEquals(".toList ++ e ++ ", ".toList ++ v
            ++ ");".toList).dropWhile isPySpace).head? == some '#') = false from rfl] at hcontr
      exact Bool.false_ne_true hcontr)]
  · intro e f he heh heq hhe hnle hsolve htrue hfalse hnone hassert
    have hnlL : '\n' ∉ "assert ".toList ++ e :=
      not_mem_append (by decide) hnle
    have heqL : '=' ∉ "assert ".toList ++ e :=
      not_mem_append (by decide) heq
    have hhashO : '#' ∉ "if (!(".toList ++ e
        ++ ")) throw new Error(\"Assertion failed\");".toList :=
      not_mem_append (not_mem_append (by decide) hhe) (by decide)
    have hnlO : '\n' ∉ "if (!(".toList ++ e
        ++ ")) throw new Error(\"Assertion failed\");".toList :=
      not_mem_append (not_mem_append (by decide) hnle) (by decide)
    unfold convertPyToTs
    rw [pyReplace_id _ _ _ hsolve]
    unfold convertAfterSolve
    rw [pyWordSub_id _ _ _ htrue]
    rw [pyWordSub_id _ _ _ hfalse]
    rw [pyWordSub_id _ _ _ hnone]
    rw [mapLines_single _ _ hnlL]
    rw [subEqLine_id_of_no_eq _ heqL]
    rw [mapLines_single _ _ hnlL]
    rw [subNeqLine_id_of_no_eq _ heqL]
    rw [mapLines_single _ _ hnlL]
    rw [subBareLine_concat e he heh hhe]
    rw [commentHashSub_id _ hhashO]
    unfold finalHashPass
    rw [if_neg (by
      intro hcontr
      rw [show ((("if (!(".toList ++ e
            ++ ")) throw new Error(\"Assertion failed\");".toList).dropWhile
              isPySpace).head? == some '#') = false from rfl] at hcontr
      exact Bool.false_ne_true hcontr)]
  · intro name testFns
    have h : (createTsTestFile name testFns).toList
        = (tsTestFilePrefix name).toList ++ (tsAssertHelper.toList
          ++ (tsTestFileMid.toList ++ (testFns.toList ++ tsTestFileSuffix.toList))) := by
      simp [createTsTestFile, String.toList, String.data_append, List.append_assoc]
    rw [h]
    exact containsSub_of_append _ _ _

/-- **C5 witness**: both universally quantified rewrite shapes discharged on
concrete canonical assertion lines. -/
theorem c5_assertion_translation_witness :
    convertPyToTs ("assert ".toList ++ ("f(1)".toList ++ (" == ".toList ++ "[true]".toList)))
        "g".toList
      = "assertDeepEquals(".toList ++ "f(1)".toList ++ ", ".toList ++ "[true]".toList
          ++ ");".toList
  ∧ convertPyToTs ("assert ".toList ++ "x > 0".toList) "g".toList
      = "if (!(".toList ++ "x > 0".toList
          ++ ")) throw new Error(\"Assertion failed\");".toList :=
  ⟨c5_assertion_translation.1 "f(1)".toList "[true]".toList "g".toList
      (by decide) (by decide) (by decide) (by decide) (by decide) (by decide) (by decide)
      (by decide) (by decide) (by decide) (by decide) (by decide) (by decide) (by decide)
      (by decide),
   c5_assertion_translation.2.1 "x > 0".toList "g".toList
      (by decide) (by decide) (by decide) (by decide) (by decide) (by decide) (by decide)
      (by decide) (by decide) (by decide)⟩

/-- Skipping exactly the consumed characters resumes a clean scan. -/
theorem replaceAllGo_skip (ph : Char) (pt repl : List Char) :
    ∀ (l t : List Char), replaceAllGo ph pt repl l.length (l ++ t)
      = replaceAllGo ph pt repl 0 t := by
  intro l
  induction l with
  | nil => intro t; rw [List.length_nil, List.nil_append]
  | cons c l2 ih =>
    intro t
    rw [List.length_cons, List.cons_append]
    show replaceAllGo ph pt repl (Nat.succ l2.length) (c :: (l2 ++ t)) = _
    rw [replaceAllGo]
    exact ih t

/-- Whether a pattern is a prefix only depends on the first `p.length`
characters. -/
theorem isPrefixOf_append_congr : ∀ (p x y z : List Char), p.length ≤ x.length →
    p.isPrefixOf (x ++ y) = p.isPrefixOf (x ++ z) := by
  intro p
  induction p with
  | nil => intro x y z _; simp [List.isPrefixOf]
  | cons a p2 ih =>
    intro x y z h
    cases x with
    | nil => simp at h
    | cons b x2 =>
      rw [List.cons_append, List.cons_append]
      simp only [List.isPrefixOf]
      rw [ih x2 y z (by simpa using h)]

/-- **C9**: `_convert_python_to_ts` FIRST replaces every occurrence of the
substring `solve` by the extracted function name — in identifiers, comments
and string literals alike — and only then runs the literal remapping and
assertion rewrites.  (1) The pipeline order, definitionally.  (2) The leftmost
occurrence in an arbitrary context is replaced and scanning continues after
it.  (3) A concrete text showing replacement inside a comment, inside the
longer identifier `resolved`, and inside a string literal.  (4) The text
introduced by the replacement IS seen by the later passes: with
`func_name = "True"` the replacement is subsequently remapped to `true`. -/
theorem c9_solve_replacement_first :
    (∀ code f, convertPyToTs code f = convertAfterSolve (pyReplace "solve".toList f code))
  ∧ (∀ a : List Char, ∀ b f : List Char,
        containsSub "solve".toList (a ++ "solv".toList) = false →
        pyReplace "solve".toList f (a ++ ("solve".toList ++ b))
          = a ++ (f ++ pyReplace "solve".toList f b))
  ∧ pyReplace "solve".toList "g".toList "# solve resolved 'solve'".toList
      = "# g regd 'g'".toList
  ∧ convertPyToTs "assert solve == 1".toList "True".toList
      = "assertDeepEquals(true, 1);".toList := by
  refine ⟨fun _ _ => rfl, ?_, by decide, by decide⟩
  intro a
  induction a with
  | nil =>
    intro b f _
    rw [List.nil_append, List.nil_append]
    show replaceAllGo 's' "olve".toList f 0 ("solve".toList ++ b)
        = f ++ pyReplace "solve".toList f b
    rw [show ("solve".toList ++ b) = 's' :: ("olve".toList ++ b) from rfl,
        replaceAllGo, if_pos (by rw [← List.cons_append]; exact isPrefixOf_append_self _ b)]
    exact congrArg (f ++ ·) (replaceAllGo_skip 's' "olve".toList f "olve".toList b)
  | cons c t ih =>
    intro b f h
    rw [List.cons_append, containsSub, Bool.or_eq_false_iff] at h
    have hfalse : ('s' :: "olve".toList).isPrefixOf (c :: (t ++ ("solve".toList ++ b)))
        = false := by
      have h1 : c :: (t ++ ("solve".toList ++ b))
          = (c :: (t ++ "solv".toList)) ++ ('e' :: b) := by
        rw [List.cons_append, List.append_assoc]
        exact congrArg (fun l => c :: (t ++ l)) rfl
      calc ('s' :: "olve".toList).isPrefixOf (c :: (t ++ ("solve".toList ++ b)))
          = ('s' :: "olve".toList).isPrefixOf ((c :: (t ++ "solv".toList)) ++ ('e' :: b)) := by
            rw [h1]
        _ = ('s' :: "olve".toList).isPrefixOf ((c :: (t ++ "solv".toList)) ++ []) :=
            isPrefixOf_append_congr _ _ _ _ (by
              simp only [List.length_cons, List.length_append]
              have h3 : "olve".toList.length = 4 := rfl
              have h4 : "solv".toList.length = 4 := rfl
              omega)
        _ = false := by rw [List.append_nil]; exact h.1
    rw [List.cons_append]
    show replaceAllGo 's' "olve".toList f 0 (c :: (t ++ ("solve".toList ++ b)))
        = c :: (t ++ (f ++ pyReplace "solve".toList f b))
    rw [replaceAllGo, if_neg (by rw [hfalse]; exact Bool.false_ne_true)]
    exact congrArg (List.cons c) (ih b f h.2)

/-- **C9 witness**: the replacement hypothesis discharged with the occurrence
placed inside a comment context. -/
theorem c9_solve_replacement_first_witness :
    pyReplace "solve".toList "g".toList
        ("# say ".toList ++ ("solve".toList ++ "d()".toList))
      = "# say ".toList ++ ("g".toList ++ pyReplace "solve".toList "g".toList "d()".toList) :=
  c9_solve_replacement_first.2.1 "# say ".toList "d()".toList "g".toList (by decide)
